import Mathlib

/-!
Verification of the veterinary-clinic report API (FastAPI + MongoDB + reportlab).
The aggregation pipelines of `app/routers/reports.py`, the PDF assembly of
`app/utils/pdf.py` and the orchestrating endpoint are embedded as pure Lean
functions over explicit record lists; MongoDB pipeline stages (match, unwind,
group, sortArray, slice) are translated to list filters, flat-maps, folds and a
stable sort, and Python dynamic values relevant to the encoding path are
modelled by an explicit bytes-or-string sum type.
-/

/-! ## Data model

`datetime` values are compared field-lexicographically, mirroring chronological
order of calendar timestamps; `strftime` with the fixed `%Y-%m-%d` pattern is
reproduced below. Currency amounts are modelled as exact rationals. -/

structure PyDateTime where
  year : Nat
  month : Nat
  day : Nat
  hour : Nat := 0
  minute : Nat := 0
  second : Nat := 0
deriving DecidableEq, Repr

def PyDateTime.le (a b : PyDateTime) : Bool :=
  if a.year < b.year then true else if b.year < a.year then false
  else if a.month < b.month then true else if b.month < a.month then false
  else if a.day < b.day then true else if b.day < a.day then false
  else if a.hour < b.hour then true else if b.hour < a.hour then false
  else if a.minute < b.minute then true else if b.minute < a.minute then false
  else decide (a.second ≤ b.second)

/-- A document of the `Payment` collection, with the fields the pipeline reads. -/
structure PaymentRecord where
  createdAt : PyDateTime
  isDeleted : Bool
  method : String
  isOutgoing : Bool
  amount : Rat
deriving DecidableEq, Repr

/-- One entry of a `Sale` document's `services` array. -/
structure ServiceItem where
  serviceName : String
  price : Rat
  quantity : Rat
deriving DecidableEq, Repr

/-- One entry of a `Sale` document's `items` array. -/
structure SaleItem where
  productName : String
  pricePerUnit : Rat
  quantity : Rat
  profit : Rat
deriving DecidableEq, Repr

/-- A document of the `Sale` collection, with the fields the pipelines read. -/
structure SaleRecord where
  createdAt : PyDateTime
  isDeleted : Bool
  isResolved : Bool
  contactName : String
  services : List ServiceItem
  items : List SaleItem
deriving DecidableEq, Repr

/-- The two collections one tenant database exposes to the report pipelines. -/
structure Database where
  payments : List PaymentRecord
  sales : List SaleRecord
deriving Repr

/-! ## Configuration constants (`app/routers/reports.py`) -/

def EXCLUDED_CONTACTS : List String :=
  ["د/ محمد صيدلية بيش",
   "عيادة الأنعام - الإدارة",
   "مؤسسة علي محمد غروي البيطرية",
   "صيدليه علي محمد غروي",
   "عيادة الانعام الظبية"]

def DATABASE_MAP : List (String × String) :=
  [("khamis", "Elanam-KhamisMushit"),
   ("baish", "Elanam-Baish"),
   ("zapia", "Elanam-Zapia")]

/-- Python `dict.get`: first binding of the key, `none` when absent. -/
def mapGet (m : List (String × String)) (k : String) : Option String :=
  match m with
  | [] => none
  | (a, b) :: rest => if a = k then some b else mapGet rest k

/-! ## Payment report (`_get_payment_report`)

`$match` on `createdAt` range and `isDeleted: False`, `$group` by the
`(method, isOutgoing)` pair summing `amount` and counting documents, `$project`
keeping the grouped fields. The group stage is a fold that accumulates one
output row per distinct key, in first-encounter order. -/

structure PaymentRow where
  method : String
  isOutgoing : Bool
  totalAmount : Rat
  transactionCount : Nat
deriving DecidableEq, Repr

def paymentMatch (s e : PyDateTime) (r : PaymentRecord) : Bool :=
  PyDateTime.le s r.createdAt && PyDateTime.le r.createdAt e && !r.isDeleted

def pkey (row : PaymentRow) : String × Bool := (row.method, row.isOutgoing)

def addToGroups (rows : List PaymentRow) (r : PaymentRecord) : List PaymentRow :=
  match rows with
  | [] => [⟨r.method, r.isOutgoing, r.amount, 1⟩]
  | row :: rest =>
    if pkey row = (r.method, r.isOutgoing) then
      ⟨row.method, row.isOutgoing, row.totalAmount + r.amount, row.transactionCount + 1⟩ :: rest
    else
      row :: addToGroups rest r

def get_payment_report (payments : List PaymentRecord) (s e : PyDateTime) :
    List PaymentRow :=
  (payments.filter (paymentMatch s e)).foldl addToGroups []

/-- The grouping key of a source record. -/
def recKey (r : PaymentRecord) : String × Bool := (r.method, r.isOutgoing)

/-- Total of `totalAmount` over the output rows carrying key `k`. -/
def rowsTotal (k : String × Bool) (rows : List PaymentRow) : Rat :=
  ((rows.filter (fun row => pkey row = k)).map PaymentRow.totalAmount).sum

/-- Total of `transactionCount` over the output rows carrying key `k`. -/
def rowsCount (k : String × Bool) (rows : List PaymentRow) : Nat :=
  ((rows.filter (fun row => pkey row = k)).map PaymentRow.transactionCount).sum

/-- Exact sum of the `amount` fields of the records carrying key `k`. -/
def recsAmount (k : String × Bool) (l : List PaymentRecord) : Rat :=
  ((l.filter (fun r => recKey r = k)).map PaymentRecord.amount).sum

/-- Number of records carrying key `k`. -/
def recsCount (k : String × Bool) (l : List PaymentRecord) : Nat :=
  (l.filter (fun r => recKey r = k)).length

/-! ## Clinic report (`_get_clinic_report`)

`$match` adds `isResolved: True`; `$unwind` flattens the `services` arrays;
`$regexMatch` with the literal pattern `لارج` is substring containment;
`$group` with `_id: None` emits no document at all for an empty input stream,
in which case the Python caller substitutes the all-zero default. -/

def leadsWith : List Char → List Char → Bool
  | [], _ => true
  | _ :: _, [] => false
  | a :: as, b :: bs => (a = b) && leadsWith as bs

def hasSub (pat : List Char) : List Char → Bool
  | [] => pat.isEmpty
  | c :: rest => leadsWith pat (c :: rest) || hasSub pat rest

def containsSub (s pat : String) : Bool := hasSub pat.toList s.toList

def isLarge (it : ServiceItem) : Bool := containsSub it.serviceName "لارج"

def serviceRevenue (it : ServiceItem) : Rat := it.price * it.quantity

def clinicMatch (s e : PyDateTime) (r : SaleRecord) : Bool :=
  PyDateTime.le s r.createdAt && PyDateTime.le r.createdAt e
    && !r.isDeleted && r.isResolved

def clinicLineItems (sales : List SaleRecord) (s e : PyDateTime) :
    List ServiceItem :=
  (sales.filter (clinicMatch s e)).flatMap SaleRecord.services

structure ClinicReport where
  totalRevenue : Rat
  largeServicesRevenue : Rat
  normalServicesRevenue : Rat
deriving DecidableEq, Repr

def get_clinic_report (sales : List SaleRecord) (s e : PyDateTime) :
    ClinicReport :=
  let li := clinicLineItems sales s e
  if li.isEmpty then ⟨0, 0, 0⟩
  else
    ⟨(li.map serviceRevenue).sum,
     (li.map (fun it => if isLarge it then serviceRevenue it else 0)).sum,
     (li.map (fun it => if isLarge it then 0 else serviceRevenue it)).sum⟩

/-! ## Sales report (`_get_sales_report`)

`$match` additionally requires `contactName` outside `EXCLUDED_CONTACTS`;
`$unwind` flattens the `items` arrays; `$group` with `_id: None` sums revenue
and profit and `$push`es every line-item's projection; `$project` sorts the
pushed array by `revenue` descending (stable) and `$slice`s the first 5. -/

structure ProductEntry where
  productName : String
  revenue : Rat
  profit : Rat
deriving DecidableEq, Repr

def salesMatch (s e : PyDateTime) (r : SaleRecord) : Bool :=
  PyDateTime.le s r.createdAt && PyDateTime.le r.createdAt e
    && !(decide (r.contactName ∈ EXCLUDED_CONTACTS)) && !r.isDeleted

def salesLineItems (sales : List SaleRecord) (s e : PyDateTime) : List SaleItem :=
  (sales.filter (salesMatch s e)).flatMap SaleRecord.items

def pushProduct (it : SaleItem) : ProductEntry :=
  ⟨it.productName, it.pricePerUnit * it.quantity, it.profit⟩

/-- The `$sortArray` stage sorting by revenue descending, modelled as a stable sort:
insert each pushed entry, in encounter order, behind every already-placed entry
of greater or equal revenue. -/
def insertRevDesc (sorted : List ProductEntry) (x : ProductEntry) :
    List ProductEntry :=
  match sorted with
  | [] => [x]
  | y :: ys =>
    if y.revenue < x.revenue then x :: y :: ys else y :: insertRevDesc ys x

def sortArrayRevDesc (l : List ProductEntry) : List ProductEntry :=
  l.foldl insertRevDesc []

structure SalesReport where
  totalRevenue : Rat
  totalProfit : Rat
  topProducts : List ProductEntry
deriving DecidableEq, Repr

def get_sales_report (sales : List SaleRecord) (s e : PyDateTime) : SalesReport :=
  let li := salesLineItems sales s e
  if li.isEmpty then ⟨0, 0, []⟩
  else
    ⟨(li.map (fun it => it.pricePerUnit * it.quantity)).sum,
     (li.map SaleItem.profit).sum,
     (sortArrayRevDesc (li.map pushProduct)).take 5⟩

/-! ## Document renderer (`app/utils/pdf.py`)

Every displayed string of the PDF is modelled as a `TextAtom` tagging whether
the string was passed through the Arabic reshaping helper before layout
(`viaAr = true` for the arguments of the helper that reshapes then reorders,
`viaAr = false` for strings placed directly into table cells). The binary
serialization of the laid-out flowables is external to the repository and is
taken as an abstract `render` parameter; the base64 transport encoding applied
afterwards is reproduced exactly. -/

structure TextAtom where
  viaAr : Bool
  content : String
deriving DecidableEq, Repr

/-- Python `%.2f` formatting of an exact rational: round half-to-even at two decimal
places, then print sign, integer part and two fractional digits. -/
def roundHalfEven (q : Rat) : Int :=
  let f := ⌊q⌋
  let r := q - (f : Rat)
  if r < 1/2 then f
  else if (1:Rat)/2 < r then f + 1
  else if f % 2 = 0 then f else f + 1

def fmt2 (x : Rat) : String :=
  let c := roundHalfEven (x * 100)
  let sign := if c < 0 then "-" else ""
  let a := c.natAbs
  sign ++ toString (a / 100) ++ "." ++ (if a % 100 < 10 then "0" else "")
    ++ toString (a % 100)

def pad2 (n : Nat) : String := (if n < 10 then "0" else "") ++ toString n

def pad4 (n : Nat) : String :=
  (if n < 10 then "000" else if n < 100 then "00" else if n < 1000 then "0" else "")
    ++ toString n

/-- Python `strftime` with the fixed `%Y-%m-%d` pattern. -/
def strftimeYmd (t : PyDateTime) : String :=
  pad4 t.year ++ "-" ++ pad2 t.month ++ "-" ++ pad2 t.day

/-- Cover page paragraphs (all passed through the reshaping helper). -/
def coverAtoms (start_date end_date : PyDateTime) (db_name : String) :
    List TextAtom :=
  [⟨true, "تقرير العيادة البيطرية الشامل"⟩,
   ⟨true, "القاعدة: " ++ db_name⟩,
   ⟨true, "الفترة من " ++ strftimeYmd start_date ++ " إلى "
      ++ strftimeYmd end_date⟩]

/-- One payment-table row: reshaped direction and method words, then the plain
amount cell (two decimals plus currency suffix) and the plain count cell. -/
def paymentRowAtoms (item : PaymentRow) : List TextAtom :=
  [⟨true, if item.isOutgoing then "صادر" else "وارد"⟩,
   ⟨true, if item.method = "network" then "شبكة" else "كاش"⟩,
   ⟨false, fmt2 item.totalAmount ++ " SAR"⟩,
   ⟨false, toString item.transactionCount⟩]

def add_payment_report (data : List PaymentRow) : List TextAtom :=
  ⟨true, "تقرير المدفوعات"⟩ ::
  ⟨true, "النوع"⟩ :: ⟨true, "الطريقة"⟩ :: ⟨true, "المبلغ"⟩ ::
  ⟨true, "عدد المعاملات"⟩ :: data.flatMap paymentRowAtoms

def add_clinic_report (data : ClinicReport) : List TextAtom :=
  [⟨true, "تقرير العيادة"⟩,
   ⟨true, "الإجمالي"⟩, ⟨false, fmt2 data.totalRevenue ++ " SAR"⟩,
   ⟨true, "خدمات لارج"⟩, ⟨false, fmt2 data.largeServicesRevenue ++ " SAR"⟩,
   ⟨true, "خدمات عادية"⟩, ⟨false, fmt2 data.normalServicesRevenue ++ " SAR"⟩]

def productRowAtoms (p : ProductEntry) : List TextAtom :=
  [⟨true, p.productName⟩,
   ⟨false, fmt2 p.revenue ++ " SAR"⟩,
   ⟨false, fmt2 p.profit ++ " SAR"⟩]

/-- Sales section: the two summary paragraphs interpolate the formatted
currency string into an Arabic sentence and pass the whole sentence through
the reshaping helper; the products table (emitted only when `topProducts` is
non-empty) reshapes names but places currency cells plain. -/
def add_sales_report (data : SalesReport) : List TextAtom :=
  [⟨true, "تقرير المبيعات والأرباح"⟩,
   ⟨true, "إجمالي الإيرادات: " ++ fmt2 data.totalRevenue ++ " SAR"⟩,
   ⟨true, "إجمالي الأرباح: " ++ fmt2 data.totalProfit ++ " SAR"⟩]
  ++ (if data.topProducts.isEmpty then []
      else ⟨true, "أفضل المنتجات:"⟩ ::
           ⟨true, "المنتج"⟩ :: ⟨true, "الإيراد"⟩ :: ⟨true, "الربح"⟩ ::
           data.topProducts.flatMap productRowAtoms)

def documentAtoms (payment : List PaymentRow) (clinic : ClinicReport)
    (sales : SalesReport) (start_date end_date : PyDateTime)
    (db_name : String) : List TextAtom :=
  coverAtoms start_date end_date db_name
    ++ add_payment_report payment
    ++ add_clinic_report clinic
    ++ add_sales_report sales

/-! ## Font registration and transport encoding -/

/-- Availability of the two font resources `_setup_arabic_font` may register:
the configured `assets/fonts/arabic.ttf`, and the `Arial` resource named by
the fallback registration. -/
structure FontEnv where
  arabicTtfAvailable : Bool
  fallbackAvailable : Bool
deriving DecidableEq, Repr

/-- Font setup `_setup_arabic_font`: register the configured font; on any failure attempt
the fallback registration, whose own failure is unguarded and propagates. -/
def setup_arabic_font (env : FontEnv) : Except String Unit :=
  if env.arabicTtfAvailable then .ok ()
  else if env.fallbackAvailable then .ok ()
  else .error "TTFError: Can not open resource Arial"

/-- A Python runtime value that is either `bytes` or `str`. -/
inductive PyBytesOrStr where
  | bytes (bs : List Nat)
  | str (s : String)
deriving DecidableEq, Repr

def b64chars : List Char :=
  "ABCDEFGHIJKLMNOPQRSTUVWXYZabcdefghijklmnopqrstuvwxyz0123456789+/".toList

def b64char (n : Nat) : Char := b64chars.getD n 'A'

/-- Python `base64.b64encode` on a byte list, rendered directly as the ASCII string
its `latin1` decoding yields. -/
def base64Encode : List Nat → String
  | [] => ""
  | [a] =>
    String.mk [b64char (a / 4 % 64), b64char (a % 4 * 16), '=', '=']
  | [a, b] =>
    String.mk [b64char (a / 4 % 64), b64char (a % 4 * 16 + b / 16 % 16),
               b64char (b % 16 * 4), '=']
  | a :: b :: c :: rest =>
    String.mk [b64char (a / 4 % 64), b64char (a % 4 * 16 + b / 16 % 16),
               b64char (b % 16 * 4 + c / 64 % 4), b64char (c % 64)]
      ++ base64Encode rest

/-- Python `decode` exists only on `bytes`; calling it on a `str` raises
`AttributeError` (Python 3 strings have no `decode` method). -/
def pyDecodeLatin1 : PyBytesOrStr → Except String String
  | .bytes bs => .ok (String.mk (bs.map Char.ofNat))
  | .str _ => .error "AttributeError: str object has no attribute decode"

/-- The renderer `generate_full_report_pdf`: register fonts, lay out all sections, build the
binary document (abstract `render`), then return
`base64.b64encode(pdf_bytes).decode(latin1)` — which is a Python `str`,
despite the function's `-> bytes` annotation. -/
def generate_full_report_pdf (payment : List PaymentRow)
    (clinic : ClinicReport) (sales : SalesReport)
    (start_date end_date : PyDateTime) (db_name : String)
    (env : FontEnv) (render : List TextAtom → List Nat) :
    Except String PyBytesOrStr :=
  match setup_arabic_font env with
  | .error e => .error e
  | .ok () =>
    .ok (.str (base64Encode
      (render (documentAtoms payment clinic sales start_date end_date db_name))))

/-! ## Orchestrator (`generate_full_report` endpoint) -/

structure ReportRequest where
  db_option : String
  start_date : PyDateTime
  end_date : PyDateTime
deriving DecidableEq, Repr

inductive ApiError where
  | http (status : Nat) (detail : String)
deriving DecidableEq, Repr

structure FullReportResponse where
  success : Bool
  payment_report : List PaymentRow
  clinic_report : ClinicReport
  sales_report : SalesReport
  pdf_bytes : String
deriving DecidableEq, Repr

/-- The endpoint: validate the dataset key against `DATABASE_MAP` (a missing
key raises HTTP 400 before any data-source access), run the three
aggregations, generate the PDF, then apply `.decode(latin1)` to the value
`generate_full_report_pdf` returned; any non-HTTP exception is converted to a
generic HTTP 500. -/
def generate_full_report (req : ReportRequest) (source : String → Database)
    (env : FontEnv) (render : List TextAtom → List Nat) :
    Except ApiError FullReportResponse :=
  match mapGet DATABASE_MAP req.db_option with
  | none => .error (.http 400 "Invalid database option")
  | some db_name =>
    let database := source db_name
    let payment := get_payment_report database.payments req.start_date req.end_date
    let clinic := get_clinic_report database.sales req.start_date req.end_date
    let sales := get_sales_report database.sales req.start_date req.end_date
    match generate_full_report_pdf payment clinic sales
        req.start_date req.end_date db_name env render with
    | .error e => .error (.http 500 ("Server error: " ++ e))
    | .ok pdfVal =>
      match pyDecodeLatin1 pdfVal with
      | .error e => .error (.http 500 ("Server error: " ++ e))
      | .ok s => .ok ⟨true, payment, clinic, sales, s⟩

/-! ## Concrete fixtures (used by the witness theorems) -/

def d1 : PyDateTime := ⟨2024, 1, 1, 0, 0, 0⟩

def d2 : PyDateTime := ⟨2024, 12, 31, 23, 59, 59⟩

def dMid : PyDateTime := ⟨2024, 6, 15, 12, 0, 0⟩

def lateDate : PyDateTime := ⟨2030, 1, 1, 0, 0, 0⟩

def fixturePayments : List PaymentRecord :=
  [⟨dMid, false, "cash", false, 100⟩,
   ⟨dMid, false, "cash", false, 50⟩,
   ⟨dMid, false, "network", true, 50⟩]

def fixtureVisit : SaleRecord :=
  ⟨dMid, false, true, "عميل عادي",
   [⟨"كشف لارج", 100, 2⟩, ⟨"كشف عادي", 50, 1⟩], []⟩

def fixtureRetail : SaleRecord :=
  ⟨dMid, false, true, "عميل عادي", [],
   [⟨"منتج أ", 5, 2, 3⟩, ⟨"منتج ب", 10, 1, 4⟩, ⟨"منتج ج", 2, 2, 1⟩]⟩

def fixtureExcludedSale : SaleRecord :=
  ⟨dMid, false, true, "د/ محمد صيدلية بيش", [⟨"كشف", 10, 1⟩],
   [⟨"منتج د", 7, 3, 2⟩]⟩

def outOfRangeDb : Database :=
  ⟨[⟨lateDate, false, "cash", false, 5⟩],
   [⟨lateDate, false, true, "عميل", [⟨"كشف", 1, 1⟩], [⟨"منتج", 1, 1, 1⟩]⟩]⟩

/-! ## General helper lemmas -/

theorem filter_middle {α : Type} (p : α → Bool) (l1 l2 : List α) (x : α)
    (h : p x = false) :
    (l1 ++ x :: l2).filter p = (l1 ++ l2).filter p := by
  simp [List.filter_cons, h]

theorem sum_split_ite (li : List ServiceItem) :
    (li.map (fun it => if isLarge it then serviceRevenue it else 0)).sum
      + (li.map (fun it => if isLarge it then 0 else serviceRevenue it)).sum
      = (li.map serviceRevenue).sum := by
  induction li with
  | nil => simp
  | cons a l ih =>
    by_cases h : isLarge a <;> simp [h] <;> rw [← ih] <;> ring

/-! ## C2 — clinic revenue split -/

/-- C2: for every input record set, the clinic summary satisfies
`largeServicesRevenue + normalServicesRevenue = totalRevenue`: each service
line-item's `price × quantity` lands in exactly one of the two buckets, so the
split is mutually exclusive and exhaustive. -/
theorem clinic_revenue_split_total (sales : List SaleRecord) (s e : PyDateTime) :
    (get_clinic_report sales s e).largeServicesRevenue
      + (get_clinic_report sales s e).normalServicesRevenue
      = (get_clinic_report sales s e).totalRevenue := by
  unfold get_clinic_report
  by_cases h : (clinicLineItems sales s e).isEmpty <;>
    simp [h, sum_split_ite]

/-- Concrete instance of C2: the spec fixture (one large service 100×2, one
normal service 50×1) yields totals 250/200/50 and satisfies the invariant. -/
theorem clinic_revenue_split_total_witness :
    get_clinic_report [fixtureVisit] d1 d2 = ⟨250, 200, 50⟩
    ∧ (get_clinic_report [fixtureVisit] d1 d2).largeServicesRevenue
        + (get_clinic_report [fixtureVisit] d1 d2).normalServicesRevenue
        = (get_clinic_report [fixtureVisit] d1 d2).totalRevenue :=
  ⟨by with_unfolding_all rfl, clinic_revenue_split_total [fixtureVisit] d1 d2⟩

/-! ## C5 — excluded contacts -/

/-- C5: a sale record whose contact name is in `EXCLUDED_CONTACTS` contributes
nothing to the sales summary: removing it from the record set leaves the whole
summary (totals and topProducts) unchanged. -/
theorem excluded_contact_invariant (l1 l2 : List SaleRecord)
    (srec : SaleRecord) (s e : PyDateTime)
    (h : srec.contactName ∈ EXCLUDED_CONTACTS) :
    get_sales_report (l1 ++ srec :: l2) s e = get_sales_report (l1 ++ l2) s e := by
  have hm : salesMatch s e srec = false := by simp [salesMatch, h]
  unfold get_sales_report salesLineItems
  rw [filter_middle _ l1 l2 srec hm]

/-- Concrete instance of C5: a sale by the first excluded contact makes no
difference to the sales summary. -/
theorem excluded_contact_invariant_witness :
    "د/ محمد صيدلية بيش" ∈ EXCLUDED_CONTACTS
    ∧ get_sales_report ([] ++ fixtureExcludedSale :: [fixtureRetail]) d1 d2
        = get_sales_report ([] ++ [fixtureRetail]) d1 d2 :=
  ⟨by decide,
   excluded_contact_invariant [] [fixtureRetail] fixtureExcludedSale d1 d2
     (by decide)⟩

/-! ## C6 — soft-deleted records -/

/-- C6: a record with `isDeleted = true` contributes nothing to any of the
three summaries, regardless of its other fields: removing it changes neither
the payment rows, nor the clinic totals, nor the sales summary. -/
theorem soft_deleted_invariant (p1 p2 : List PaymentRecord) (p : PaymentRecord)
    (s1 s2 : List SaleRecord) (q : SaleRecord) (s e : PyDateTime)
    (hp : p.isDeleted = true) (hq : q.isDeleted = true) :
    get_payment_report (p1 ++ p :: p2) s e = get_payment_report (p1 ++ p2) s e
    ∧ get_clinic_report (s1 ++ q :: s2) s e = get_clinic_report (s1 ++ s2) s e
    ∧ get_sales_report (s1 ++ q :: s2) s e = get_sales_report (s1 ++ s2) s e := by
  have hpm : paymentMatch s e p = false := by simp [paymentMatch, hp]
  have hcm : clinicMatch s e q = false := by simp [clinicMatch, hq]
  have hsm : salesMatch s e q = false := by simp [salesMatch, hq]
  refine ⟨?_, ?_, ?_⟩
  · unfold get_payment_report
    rw [filter_middle _ p1 p2 p hpm]
  · unfold get_clinic_report clinicLineItems
    rw [filter_middle _ s1 s2 q hcm]
  · unfold get_sales_report salesLineItems
    rw [filter_middle _ s1 s2 q hsm]

/-- Concrete instance of C6: a deleted payment and a deleted sale (carrying
otherwise-matching fields) leave all three summaries unchanged. -/
theorem soft_deleted_invariant_witness :
    get_payment_report (fixturePayments ++ ⟨dMid, true, "cash", false, 999⟩
        :: []) d1 d2
      = get_payment_report (fixturePayments ++ []) d1 d2
    ∧ get_clinic_report ([fixtureVisit] ++ ⟨dMid, true, true, "عميل",
          [⟨"كشف لارج", 77, 1⟩], [⟨"منتج", 9, 9, 9⟩]⟩ :: []) d1 d2
        = get_clinic_report ([fixtureVisit] ++ []) d1 d2
    ∧ get_sales_report ([fixtureVisit] ++ ⟨dMid, true, true, "عميل",
          [⟨"كشف لارج", 77, 1⟩], [⟨"منتج", 9, 9, 9⟩]⟩ :: []) d1 d2
        = get_sales_report ([fixtureVisit] ++ []) d1 d2 :=
  soft_deleted_invariant fixturePayments [] ⟨dMid, true, "cash", false, 999⟩
    [fixtureVisit] [] ⟨dMid, true, true, "عميل", [⟨"كشف لارج", 77, 1⟩],
    [⟨"منتج", 9, 9, 9⟩]⟩ d1 d2 rfl rfl

/-! ## C7 — unknown dataset key -/

/-- C7: a request whose dataset key is missing from `DATABASE_MAP` yields the
HTTP 400 "Invalid database option" error, for every data source, font
environment and renderer alike — no downstream work influences the result. -/
theorem unknown_dataset_client_error (req : ReportRequest)
    (h : mapGet DATABASE_MAP req.db_option = none)
    (source : String → Database) (env : FontEnv)
    (render : List TextAtom → List Nat) :
    generate_full_report req source env render
      = .error (.http 400 "Invalid database option") := by
  unfold generate_full_report
  rw [h]

/-- Concrete instance of C7: the unknown key "other" is rejected with the 400
error. -/
theorem unknown_dataset_client_error_witness :
    generate_full_report ⟨"other", d1, d2⟩ (fun _ => ⟨[], []⟩) ⟨true, true⟩
        (fun _ => [])
      = .error (.http 400 "Invalid database option") :=
  unknown_dataset_client_error ⟨"other", d1, d2⟩ (by decide) _ _ _

/-! ## C8 — zero matching records -/

/-- C8: when no record matches the time range (and flag filters), each
aggregation returns its documented default: empty payment row list, all-zero
clinic totals, zero sales totals with empty topProducts. -/
theorem zero_matching_defaults (db : Database) (s e : PyDateTime)
    (h1 : ∀ p ∈ db.payments, paymentMatch s e p = false)
    (h2 : ∀ r ∈ db.sales, clinicMatch s e r = false)
    (h3 : ∀ r ∈ db.sales, salesMatch s e r = false) :
    get_payment_report db.payments s e = []
    ∧ get_clinic_report db.sales s e = ⟨0, 0, 0⟩
    ∧ get_sales_report db.sales s e = ⟨0, 0, []⟩ := by
  have e1 : db.payments.filter (paymentMatch s e) = [] := by
    rw [List.filter_eq_nil_iff]
    intro a ha
    simp [h1 a ha]
  have e2 : db.sales.filter (clinicMatch s e) = [] := by
    rw [List.filter_eq_nil_iff]
    intro a ha
    simp [h2 a ha]
  have e3 : db.sales.filter (salesMatch s e) = [] := by
    rw [List.filter_eq_nil_iff]
    intro a ha
    simp [h3 a ha]
  refine ⟨?_, ?_, ?_⟩
  · unfold get_payment_report
    rw [e1]
    rfl
  · unfold get_clinic_report clinicLineItems
    rw [e2]
    rfl
  · unfold get_sales_report salesLineItems
    rw [e3]
    rfl

/-- Concrete instance of C8: a database whose only records fall after the
range produces exactly the three documented defaults. -/
theorem zero_matching_defaults_witness :
    get_payment_report outOfRangeDb.payments d1 d2 = []
    ∧ get_clinic_report outOfRangeDb.sales d1 d2 = ⟨0, 0, 0⟩
    ∧ get_sales_report outOfRangeDb.sales d1 d2 = ⟨0, 0, []⟩ :=
  zero_matching_defaults outOfRangeDb d1 d2 (by decide) (by decide) (by decide)

/-! ## C1 — transport encoding of the PDF -/

/-- C1 (refuted by the code): for every request with a valid dataset key whose
aggregation and font setup succeed, the endpoint does NOT return a success
payload: `generate_full_report_pdf` already returns the base64 `str`, the
endpoint then calls `.decode(latin1)` on that `str`, and the resulting
`AttributeError` is converted to a generic HTTP 500 — for every data source
and every rendered byte sequence. -/
theorem valid_request_returns_500 (req : ReportRequest) (db_name : String)
    (h : mapGet DATABASE_MAP req.db_option = some db_name)
    (source : String → Database) (env : FontEnv)
    (render : List TextAtom → List Nat)
    (hfont : setup_arabic_font env = .ok ()) :
    generate_full_report req source env render
      = .error (.http 500
          "Server error: AttributeError: str object has no attribute decode") := by
  unfold generate_full_report generate_full_report_pdf
  rw [h, hfont]
  with_unfolding_all rfl

/-- Concrete instance of C1's failure: the valid key "khamis" with in-range
data and available fonts still produces the HTTP 500 AttributeError response. -/
theorem valid_request_returns_500_witness :
    generate_full_report ⟨"khamis", d1, d2⟩
        (fun _ => ⟨fixturePayments, [fixtureVisit, fixtureRetail]⟩)
        ⟨true, true⟩ (fun _ => [37, 80, 68, 70])
      = .error (.http 500
          "Server error: AttributeError: str object has no attribute decode") :=
  valid_request_returns_500 ⟨"khamis", d1, d2⟩ "Elanam-KhamisMushit"
    rfl _ _ _ rfl

/-! ## C9 — font fallback -/

/-- C9 as stated is false: when both the configured Arabic font and the
fallback resource are unavailable, the unguarded fallback registration fails
and the renderer raises instead of producing the document. -/
theorem font_unavailable_fails_request :
    generate_full_report_pdf [] ⟨0, 0, 0⟩ ⟨0, 0, []⟩ d1 d2
        "Elanam-KhamisMushit" ⟨false, false⟩ (fun _ => [])
      = .error "TTFError: Can not open resource Arial" := by
  rfl

/-- C9 (amended): if the configured Arabic font is unavailable but the
fallback registration succeeds, the renderer still produces the document —
font unavailability fails the render only when the fallback registration
fails too. -/
theorem font_fallback_renders (payment : List PaymentRow)
    (clinic : ClinicReport) (sales : SalesReport) (s e : PyDateTime)
    (db_name : String) (env : FontEnv)
    (render : List TextAtom → List Nat)
    (h1 : env.arabicTtfAvailable = false) (h2 : env.fallbackAvailable = true) :
    generate_full_report_pdf payment clinic sales s e db_name env render
      = .ok (.str (base64Encode
          (render (documentAtoms payment clinic sales s e db_name)))) := by
  unfold generate_full_report_pdf setup_arabic_font
  simp [h1, h2]

/-- Concrete instance of the amended C9: with only the fallback font
available, the renderer returns the base64 text of the rendered bytes. -/
theorem font_fallback_renders_witness :
    generate_full_report_pdf [] ⟨0, 0, 0⟩ ⟨0, 0, []⟩ d1 d2 "Elanam-Baish"
        ⟨false, true⟩ (fun _ => [65, 66])
      = .ok (.str (base64Encode ((fun _ => [65, 66])
          (documentAtoms [] ⟨0, 0, 0⟩ ⟨0, 0, []⟩ d1 d2 "Elanam-Baish"))))
    ∧ base64Encode [65, 66] = "QUI=" :=
  ⟨font_fallback_renders [] ⟨0, 0, 0⟩ ⟨0, 0, []⟩ d1 d2 "Elanam-Baish"
     ⟨false, true⟩ (fun _ => [65, 66]) rfl rfl,
   by decide⟩

/-! ## C3 — payment grouping -/

theorem rowsTotal_nil (k : String × Bool) : rowsTotal k [] = 0 := rfl

theorem rowsCount_nil (k : String × Bool) : rowsCount k [] = 0 := rfl

theorem recsAmount_nil (k : String × Bool) : recsAmount k [] = 0 := rfl

theorem recsCount_nil (k : String × Bool) : recsCount k [] = 0 := rfl

theorem rowsTotal_cons (k : String × Bool) (x : PaymentRow)
    (xs : List PaymentRow) :
    rowsTotal k (x :: xs)
      = (if pkey x = k then x.totalAmount else 0) + rowsTotal k xs := by
  by_cases h : pkey x = k <;> simp [rowsTotal, List.filter_cons, h]

theorem rowsCount_cons (k : String × Bool) (x : PaymentRow)
    (xs : List PaymentRow) :
    rowsCount k (x :: xs)
      = (if pkey x = k then x.transactionCount else 0) + rowsCount k xs := by
  by_cases h : pkey x = k <;> simp [rowsCount, List.filter_cons, h]

theorem recsAmount_cons (k : String × Bool) (r : PaymentRecord)
    (l : List PaymentRecord) :
    recsAmount k (r :: l)
      = (if recKey r = k then r.amount else 0) + recsAmount k l := by
  by_cases h : recKey r = k <;> simp [recsAmount, List.filter_cons, h]

theorem recsCount_cons (k : String × Bool) (r : PaymentRecord)
    (l : List PaymentRecord) :
    recsCount k (r :: l)
      = (if recKey r = k then 1 else 0) + recsCount k l := by
  by_cases h : recKey r = k <;>
    simp [recsCount, List.filter_cons, h, Nat.add_comm]

theorem rowsTotal_addToGroups (k : String × Bool) (rows : List PaymentRow)
    (r : PaymentRecord) :
    rowsTotal k (addToGroups rows r)
      = rowsTotal k rows + (if recKey r = k then r.amount else 0) := by
  induction rows with
  | nil =>
    simp only [addToGroups, rowsTotal_cons, rowsTotal_nil, recKey, pkey]
    ring
  | cons row rest ih =>
    have hrk : recKey r = (r.method, r.isOutgoing) := rfl
    by_cases hrow : pkey row = (r.method, r.isOutgoing)
    · simp only [addToGroups, if_pos hrow, rowsTotal_cons]
      have hupd : pkey ⟨row.method, row.isOutgoing,
          row.totalAmount + r.amount, row.transactionCount + 1⟩ = pkey row := rfl
      rw [hupd]
      by_cases hk : pkey row = k
      · have hky : recKey r = k := by rw [hrk, ← hrow]; exact hk
        rw [if_pos hk, if_pos hk, if_pos hky]
        ring
      · have hky : ¬recKey r = k := by rw [hrk, ← hrow]; exact hk
        rw [if_neg hk, if_neg hk, if_neg hky]
        ring
    · simp only [addToGroups, if_neg hrow, rowsTotal_cons, ih]
      ring

theorem rowsCount_addToGroups (k : String × Bool) (rows : List PaymentRow)
    (r : PaymentRecord) :
    rowsCount k (addToGroups rows r)
      = rowsCount k rows + (if recKey r = k then 1 else 0) := by
  induction rows with
  | nil =>
    simp only [addToGroups, rowsCount_cons, rowsCount_nil, recKey, pkey]
    omega
  | cons row rest ih =>
    have hrk : recKey r = (r.method, r.isOutgoing) := rfl
    by_cases hrow : pkey row = (r.method, r.isOutgoing)
    · simp only [addToGroups, if_pos hrow, rowsCount_cons]
      have hupd : pkey ⟨row.method, row.isOutgoing,
          row.totalAmount + r.amount, row.transactionCount + 1⟩ = pkey row := rfl
      rw [hupd]
      by_cases hk : pkey row = k
      · have hky : recKey r = k := by rw [hrk, ← hrow]; exact hk
        rw [if_pos hk, if_pos hk, if_pos hky]
        omega
      · have hky : ¬recKey r = k := by rw [hrk, ← hrow]; exact hk
        rw [if_neg hk, if_neg hk, if_neg hky]
        omega
    · simp only [addToGroups, if_neg hrow, rowsCount_cons, ih]
      omega

theorem rowsTotal_foldl (k : String × Bool) (l : List PaymentRecord) :
    ∀ acc : List PaymentRow,
    rowsTotal k (l.foldl addToGroups acc) = rowsTotal k acc + recsAmount k l := by
  induction l with
  | nil =>
    intro acc
    simp [recsAmount_nil]
  | cons r l ih =>
    intro acc
    simp only [List.foldl_cons, ih, rowsTotal_addToGroups, recsAmount_cons]
    ring

theorem rowsCount_foldl (k : String × Bool) (l : List PaymentRecord) :
    ∀ acc : List PaymentRow,
    rowsCount k (l.foldl addToGroups acc) = rowsCount k acc + recsCount k l := by
  induction l with
  | nil =>
    intro acc
    simp [recsCount_nil]
  | cons r l ih =>
    intro acc
    simp only [List.foldl_cons, ih, rowsCount_addToGroups, recsCount_cons]
    omega

theorem keys_addToGroups (rows : List PaymentRow) (r : PaymentRecord) :
    (addToGroups rows r).map pkey =
      if recKey r ∈ rows.map pkey then rows.map pkey
      else rows.map pkey ++ [recKey r] := by
  induction rows with
  | nil => simp [addToGroups, pkey, recKey]
  | cons row rest ih =>
    have hrk : recKey r = (r.method, r.isOutgoing) := rfl
    by_cases hrow : pkey row = (r.method, r.isOutgoing)
    · simp only [addToGroups, if_pos hrow]
      have hmem : recKey r ∈ (row :: rest).map pkey := by
        simp only [List.map_cons, List.mem_cons]
        exact Or.inl (by rw [hrk, hrow])
      rw [if_pos hmem]
      rfl
    · simp only [addToGroups, List.map_cons, if_neg hrow, ih]
      have hne : recKey r ≠ pkey row := by
        rw [hrk]
        exact fun h => hrow h.symm
      by_cases hmem : recKey r ∈ rest.map pkey
      · rw [if_pos hmem, if_pos (by simp [hmem])]
      · rw [if_neg hmem, if_neg (by simp [hmem, hne])]
        simp

theorem nodup_keys_addToGroups {rows : List PaymentRow} {r : PaymentRecord}
    (h : (rows.map pkey).Nodup) : ((addToGroups rows r).map pkey).Nodup := by
  rw [keys_addToGroups]
  by_cases hmem : recKey r ∈ rows.map pkey
  · rw [if_pos hmem]
    exact h
  · rw [if_neg hmem]
    simp [List.nodup_append, h, hmem]

theorem nodup_keys_foldl (l : List PaymentRecord) :
    ∀ acc : List PaymentRow, (acc.map pkey).Nodup →
    ((l.foldl addToGroups acc).map pkey).Nodup := by
  induction l with
  | nil => exact fun acc h => h
  | cons r l ih => exact fun acc h => ih _ (nodup_keys_addToGroups h)

theorem one_le_count_addToGroups {rows : List PaymentRow} {r : PaymentRecord}
    (h : ∀ x ∈ rows, 1 ≤ x.transactionCount) :
    ∀ x ∈ addToGroups rows r, 1 ≤ x.transactionCount := by
  induction rows with
  | nil =>
    intro x hx
    simp only [addToGroups, List.mem_singleton] at hx
    subst hx
    simp
  | cons row rest ih =>
    intro x hx
    by_cases hrow : pkey row = (r.method, r.isOutgoing)
    · simp only [addToGroups, if_pos hrow, List.mem_cons] at hx
      rcases hx with hx | hx
      · subst hx
        simp
      · exact h x (List.mem_cons_of_mem _ hx)
    · simp only [addToGroups, if_neg hrow, List.mem_cons] at hx
      rcases hx with hx | hx
      · subst hx
        exact h x (List.mem_cons_self _ _)
      · exact ih (fun y hy => h y (List.mem_cons_of_mem _ hy)) x hx

theorem one_le_count_foldl (l : List PaymentRecord) :
    ∀ acc : List PaymentRow, (∀ x ∈ acc, 1 ≤ x.transactionCount) →
    ∀ x ∈ l.foldl addToGroups acc, 1 ≤ x.transactionCount := by
  induction l with
  | nil => exact fun acc h => h
  | cons r l ih => exact fun acc h => ih _ (one_le_count_addToGroups h)

theorem filter_key_eq_singleton :
    ∀ {rows : List PaymentRow}, (rows.map pkey).Nodup →
    ∀ {row : PaymentRow}, row ∈ rows →
    rows.filter (fun x => pkey x = pkey row) = [row] := by
  intro rows
  induction rows with
  | nil => simp
  | cons a rest ih =>
    intro hnd row hmem
    have ha : pkey a ∉ rest.map pkey := (List.nodup_cons.mp hnd).1
    rcases List.mem_cons.mp hmem with h | h
    · subst h
      rw [List.filter_cons_of_pos (by simp)]
      have hnil : rest.filter (fun x => pkey x = pkey row) = [] := by
        rw [List.filter_eq_nil_iff]
        intro x hx hpx
        rw [decide_eq_true_eq] at hpx
        exact ha (hpx ▸ List.mem_map_of_mem pkey hx)
      rw [hnil]
    · have hne : pkey a ≠ pkey row := by
        intro hEq
        exact ha (hEq ▸ List.mem_map_of_mem pkey h)
      rw [List.filter_cons_of_neg (by simp [hne])]
      exact ih (List.nodup_cons.mp hnd).2 h

/-- C3: the payment summary has exactly one row per `(method, isOutgoing)` key
observed among the filtered records: the key list is duplicate-free, each
row's `totalAmount` is the exact sum of its group's `amount` fields and its
`transactionCount` the group's size, each emitted row corresponds to an
observed key, and every filtered record is represented by some row. -/
theorem payment_grouping (payments : List PaymentRecord) (s e : PyDateTime) :
    ((get_payment_report payments s e).map pkey).Nodup
    ∧ (∀ row ∈ get_payment_report payments s e,
        row.totalAmount
            = recsAmount (pkey row) (payments.filter (paymentMatch s e))
          ∧ row.transactionCount
              = recsCount (pkey row) (payments.filter (paymentMatch s e))
          ∧ ∃ r ∈ payments.filter (paymentMatch s e), recKey r = pkey row)
    ∧ ∀ r ∈ payments.filter (paymentMatch s e),
        ∃ row ∈ get_payment_report payments s e, pkey row = recKey r := by
  have hout : get_payment_report payments s e
      = (payments.filter (paymentMatch s e)).foldl addToGroups [] := rfl
  have hnd : ((get_payment_report payments s e).map pkey).Nodup := by
    rw [hout]
    exact nodup_keys_foldl _ [] (by simp)
  refine ⟨hnd, ?_, ?_⟩
  · intro row hrow
    have hsingle := filter_key_eq_singleton hnd hrow
    have htot : rowsTotal (pkey row) (get_payment_report payments s e)
        = row.totalAmount := by
      simp [rowsTotal, hsingle]
    have hcnt : rowsCount (pkey row) (get_payment_report payments s e)
        = row.transactionCount := by
      simp [rowsCount, hsingle]
    have htot2 : rowsTotal (pkey row) (get_payment_report payments s e)
        = recsAmount (pkey row) (payments.filter (paymentMatch s e)) := by
      rw [hout, rowsTotal_foldl, rowsTotal_nil, zero_add]
    have hcnt2 : rowsCount (pkey row) (get_payment_report payments s e)
        = recsCount (pkey row) (payments.filter (paymentMatch s e)) := by
      rw [hout, rowsCount_foldl, rowsCount_nil, Nat.zero_add]
    refine ⟨by rw [← htot, htot2], by rw [← hcnt, hcnt2], ?_⟩
    have hpos : 0 < recsCount (pkey row) (payments.filter (paymentMatch s e)) := by
      have h1 : 1 ≤ row.transactionCount := by
        rw [hout] at hrow
        exact one_le_count_foldl _ [] (by simp) row hrow
      have h2 : recsCount (pkey row) (payments.filter (paymentMatch s e))
          = row.transactionCount := by
        rw [← hcnt2, hcnt]
      omega
    rcases List.exists_mem_of_length_pos hpos with ⟨a, hafil⟩
    have := List.mem_filter.mp hafil
    exact ⟨a, this.1, by
      have := this.2
      rwa [decide_eq_true_eq] at this⟩
  · intro r hr
    have hpos : 0 < recsCount (recKey r) (payments.filter (paymentMatch s e)) := by
      have : r ∈ (payments.filter (paymentMatch s e)).filter
          (fun x => recKey x = recKey r) :=
        List.mem_filter.mpr ⟨hr, by simp⟩
      have hne := List.ne_nil_of_mem this
      have := List.length_pos.mpr hne
      exact this
    have hsum : rowsCount (recKey r) (get_payment_report payments s e)
        = recsCount (recKey r) (payments.filter (paymentMatch s e)) := by
      rw [hout, rowsCount_foldl, rowsCount_nil, Nat.zero_add]
    cases hf : (get_payment_report payments s e).filter
        (fun x => pkey x = recKey r) with
    | nil =>
      exfalso
      have : rowsCount (recKey r) (get_payment_report payments s e) = 0 := by
        simp [rowsCount, hf]
      omega
    | cons row rest =>
      have hmemf : row ∈ (get_payment_report payments s e).filter
          (fun x => pkey x = recKey r) := by
        rw [hf]
        exact List.mem_cons_self _ _
      have hp := List.mem_filter.mp hmemf
      exact ⟨row, hp.1, by
        have := hp.2
        rwa [decide_eq_true_eq] at this⟩

/-- Concrete instance of C3: the spec fixture (two in-range cash incoming
payments of 100 and 50, one network outgoing of 50) groups into exactly two
rows with the expected sums and counts, and duplicate-free keys. -/
theorem payment_grouping_witness :
    get_payment_report fixturePayments d1 d2
        = [⟨"cash", false, 150, 2⟩, ⟨"network", true, 50, 1⟩]
    ∧ ((get_payment_report fixturePayments d1 d2).map pkey).Nodup :=
  ⟨by with_unfolding_all rfl, (payment_grouping fixturePayments d1 d2).1⟩

/-! ## C4 — top products -/

theorem mem_insertRevDesc {z x : ProductEntry} :
    ∀ {l : List ProductEntry}, z ∈ insertRevDesc l x ↔ z = x ∨ z ∈ l := by
  intro l
  induction l with
  | nil => simp [insertRevDesc]
  | cons y ys ih =>
    by_cases hc : y.revenue < x.revenue
    · rw [insertRevDesc, if_pos hc]
      simp only [List.mem_cons]
    · rw [insertRevDesc, if_neg hc]
      simp only [List.mem_cons, ih]
      tauto

theorem pairwise_insertRevDesc {l : List ProductEntry} {x : ProductEntry}
    (h : l.Pairwise (fun a b => b.revenue ≤ a.revenue)) :
    (insertRevDesc l x).Pairwise (fun a b => b.revenue ≤ a.revenue) := by
  induction l with
  | nil => simp [insertRevDesc]
  | cons y ys ih =>
    rw [List.pairwise_cons] at h
    obtain ⟨hy, hys⟩ := h
    by_cases hc : y.revenue < x.revenue
    · rw [insertRevDesc, if_pos hc]
      refine List.pairwise_cons.mpr ⟨?_, List.pairwise_cons.mpr ⟨hy, hys⟩⟩
      intro z hz
      rcases List.mem_cons.mp hz with rfl | hz
      · exact le_of_lt hc
      · exact le_trans (hy z hz) (le_of_lt hc)
    · rw [insertRevDesc, if_neg hc]
      refine List.pairwise_cons.mpr ⟨?_, ih hys⟩
      intro z hz
      rcases mem_insertRevDesc.mp hz with rfl | hz
      · exact not_lt.mp hc
      · exact hy z hz

theorem pairwise_foldl_insert (l : List ProductEntry) :
    ∀ acc : List ProductEntry,
    acc.Pairwise (fun a b => b.revenue ≤ a.revenue) →
    (l.foldl insertRevDesc acc).Pairwise (fun a b => b.revenue ≤ a.revenue) := by
  induction l with
  | nil => exact fun acc h => h
  | cons x l ih => exact fun acc h => ih _ (pairwise_insertRevDesc h)

theorem insertRevDesc_perm (x : ProductEntry) :
    ∀ l : List ProductEntry, List.Perm (insertRevDesc l x) (x :: l) := by
  intro l
  induction l with
  | nil => rfl
  | cons y ys ih =>
    by_cases hc : y.revenue < x.revenue
    · rw [insertRevDesc, if_pos hc]
    · rw [insertRevDesc, if_neg hc]
      exact (List.Perm.cons y ih).trans (List.Perm.swap x y ys)

theorem foldl_insert_perm (l : List ProductEntry) :
    ∀ acc : List ProductEntry,
    List.Perm (l.foldl insertRevDesc acc) (acc ++ l) := by
  induction l with
  | nil => simp
  | cons x l ih =>
    intro acc
    have h1 : List.Perm (l.foldl insertRevDesc (insertRevDesc acc x))
        (insertRevDesc acc x ++ l) := ih _
    have h2 : List.Perm (insertRevDesc acc x ++ l) ((x :: acc) ++ l) :=
      (insertRevDesc_perm x acc).append_right l
    have h3 : List.Perm ((x :: acc) ++ l) (acc ++ x :: l) :=
      List.perm_middle.symm
    exact (h1.trans h2).trans h3

theorem filter_insertRevDesc_of_ne {x : ProductEntry} {v : Rat}
    (hx : ¬ x.revenue = v) :
    ∀ l : List ProductEntry,
    (insertRevDesc l x).filter (fun p => p.revenue = v)
      = l.filter (fun p => p.revenue = v) := by
  intro l
  induction l with
  | nil => simp [insertRevDesc, hx]
  | cons y ys ih =>
    by_cases hc : y.revenue < x.revenue
    · rw [insertRevDesc, if_pos hc, List.filter_cons_of_neg (by simp [hx])]
    · rw [insertRevDesc, if_neg hc]
      simp only [List.filter_cons, ih]

theorem filter_insertRevDesc_of_eq {x : ProductEntry} {v : Rat}
    (hx : x.revenue = v) :
    ∀ {l : List ProductEntry},
    l.Pairwise (fun a b => b.revenue ≤ a.revenue) →
    (insertRevDesc l x).filter (fun p => p.revenue = v)
      = l.filter (fun p => p.revenue = v) ++ [x] := by
  intro l
  induction l with
  | nil =>
    intro _
    simp [insertRevDesc, hx]
  | cons y ys ih =>
    intro hsort
    rw [List.pairwise_cons] at hsort
    obtain ⟨hy, hys⟩ := hsort
    by_cases hc : y.revenue < x.revenue
    · rw [insertRevDesc, if_pos hc, List.filter_cons_of_pos (by simp [hx])]
      have hnone : (y :: ys).filter (fun p => p.revenue = v) = [] := by
        rw [List.filter_eq_nil_iff]
        intro z hz hpz
        rw [decide_eq_true_eq] at hpz
        rcases List.mem_cons.mp hz with rfl | hzys
        · rw [hx] at hc
          rw [hpz] at hc
          exact lt_irrefl v hc
        · have h1 : z.revenue ≤ y.revenue := hy z hzys
          rw [hpz, ← hx] at h1
          exact absurd (lt_of_le_of_lt h1 hc) (lt_irrefl x.revenue)
      rw [hnone]
      rfl
    · rw [insertRevDesc, if_neg hc]
      simp only [List.filter_cons, ih hys]
      split
      · simp
      · rfl

theorem filter_foldl_insert (v : Rat) (l : List ProductEntry) :
    ∀ acc : List ProductEntry,
    acc.Pairwise (fun a b => b.revenue ≤ a.revenue) →
    (l.foldl insertRevDesc acc).filter (fun p => p.revenue = v)
      = acc.filter (fun p => p.revenue = v)
        ++ l.filter (fun p => p.revenue = v) := by
  induction l with
  | nil =>
    intro acc _
    simp
  | cons x l ih =>
    intro acc hacc
    rw [List.foldl_cons, ih _ (pairwise_insertRevDesc hacc)]
    by_cases hx : x.revenue = v
    · rw [filter_insertRevDesc_of_eq hx hacc,
        List.filter_cons_of_pos (by simp [hx])]
      simp
    · rw [filter_insertRevDesc_of_ne hx, List.filter_cons_of_neg (by simp [hx])]

/-- C4: `topProducts` is the 5-element prefix of the stable descending sort of
all collected line-item entries: it is sorted by revenue descending, has
length at most 5, all its elements come from the collected line-items, and the
sort is stable — for every revenue value, the entries carrying that revenue
appear in the sorted array exactly in their original encounter order. -/
theorem sales_top_products (sales : List SaleRecord) (s e : PyDateTime) :
    (get_sales_report sales s e).topProducts.Pairwise
        (fun a b => b.revenue ≤ a.revenue)
    ∧ (get_sales_report sales s e).topProducts.length ≤ 5
    ∧ (∀ p ∈ (get_sales_report sales s e).topProducts,
        p ∈ (salesLineItems sales s e).map pushProduct)
    ∧ (∀ v : Rat,
        (sortArrayRevDesc ((salesLineItems sales s e).map pushProduct)).filter
            (fun p => p.revenue = v)
          = ((salesLineItems sales s e).map pushProduct).filter
              (fun p => p.revenue = v))
    ∧ (get_sales_report sales s e).topProducts
        = (sortArrayRevDesc ((salesLineItems sales s e).map pushProduct)).take 5 := by
  have hlast : (get_sales_report sales s e).topProducts
      = (sortArrayRevDesc ((salesLineItems sales s e).map pushProduct)).take 5 := by
    unfold get_sales_report
    by_cases h : (salesLineItems sales s e).isEmpty
    · rw [List.isEmpty_iff] at h
      simp [h, sortArrayRevDesc]
    · simp [h]
  have hsorted : (sortArrayRevDesc
      ((salesLineItems sales s e).map pushProduct)).Pairwise
      (fun a b => b.revenue ≤ a.revenue) :=
    pairwise_foldl_insert _ [] (by simp)
  refine ⟨?_, ?_, ?_, ?_, hlast⟩
  · rw [hlast]
    exact hsorted.sublist (List.take_sublist _ _)
  · rw [hlast]
    exact List.length_take_le _ _
  · intro p hp
    rw [hlast] at hp
    have h1 : p ∈ sortArrayRevDesc ((salesLineItems sales s e).map pushProduct) :=
      (List.take_sublist 5 _).subset hp
    have h2 := (foldl_insert_perm ((salesLineItems sales s e).map pushProduct)
      []).mem_iff.mp h1
    simpa using h2
  · intro v
    have h := filter_foldl_insert v ((salesLineItems sales s e).map pushProduct)
      [] (by simp)
    simpa [sortArrayRevDesc] using h

/-- Concrete instance of C4: three line-items with revenues 10, 10 and 4 sort
to the stable order (first 10-revenue entry before the second), all within the
length-5 prefix. -/
theorem sales_top_products_witness :
    get_sales_report [fixtureRetail] d1 d2
        = ⟨24, 8, [⟨"منتج أ", 10, 3⟩, ⟨"منتج ب", 10, 4⟩, ⟨"منتج ج", 4, 1⟩]⟩
    ∧ (get_sales_report [fixtureRetail] d1 d2).topProducts.length ≤ 5 :=
  ⟨by with_unfolding_all rfl, (sales_top_products [fixtureRetail] d1 d2).2.1⟩

/-! ## C10 — reshaping of currency strings -/

/-- C10 as stated is false: in the sales summary lines, the code interpolates
the 2-decimal currency string into an Arabic sentence and passes the whole
sentence through the reshaping helper — here a reshaped atom whose text
contains the currency string "10.00 SAR". -/
theorem sales_summary_currency_reshaped :
    (⟨true, "إجمالي الإيرادات: 10.00 SAR"⟩ : TextAtom)
        ∈ add_sales_report ⟨10, 5, []⟩
    ∧ containsSub "إجمالي الإيرادات: 10.00 SAR" "10.00 SAR" = true := by
  constructor
  · have h : add_sales_report ⟨10, 5, []⟩
        = [⟨true, "تقرير المبيعات والأرباح"⟩,
           ⟨true, "إجمالي الإيرادات: 10.00 SAR"⟩,
           ⟨true, "إجمالي الأرباح: 5.00 SAR"⟩] := by
      with_unfolding_all rfl
    rw [h]
    simp
  · decide

/-- C10 (amended): currency cells of the payment table, the clinic table and
the products table are emitted without reshaping — every reshaped atom there
is one of the fixed Arabic labels (or a product name) — but the two sales
summary lines do pass their composed currency-bearing sentences through the
reshaping helper. -/
theorem reshaping_scope (data : List PaymentRow) (c : ClinicReport)
    (sl : SalesReport) :
    (∀ a ∈ add_payment_report data, a.viaAr = true →
        a.content ∈ ["تقرير المدفوعات", "النوع", "الطريقة", "المبلغ",
          "عدد المعاملات", "صادر", "وارد", "شبكة", "كاش"])
    ∧ (∀ a ∈ add_clinic_report c, a.viaAr = true →
        a.content ∈ ["تقرير العيادة", "الإجمالي", "خدمات لارج", "خدمات عادية"])
    ∧ (∀ a ∈ sl.topProducts.flatMap productRowAtoms, a.viaAr = true →
        ∃ p ∈ sl.topProducts, a.content = p.productName)
    ∧ (⟨true, "إجمالي الإيرادات: " ++ fmt2 sl.totalRevenue ++ " SAR"⟩ : TextAtom)
        ∈ add_sales_report sl
    ∧ (⟨true, "إجمالي الأرباح: " ++ fmt2 sl.totalProfit ++ " SAR"⟩ : TextAtom)
        ∈ add_sales_report sl := by
  refine ⟨?_, ?_, ?_, ?_, ?_⟩
  · intro a ha hv
    simp only [add_payment_report, List.mem_cons, List.mem_flatMap] at ha
    rcases ha with rfl | rfl | rfl | rfl | rfl | ⟨item, hitem, ha⟩
    · decide
    · decide
    · decide
    · decide
    · decide
    · simp only [paymentRowAtoms, List.mem_cons] at ha
      rcases ha with rfl | rfl | rfl | rfl | ha
      · by_cases hio : item.isOutgoing <;> simp [hio]
      · by_cases hm : item.method = "network" <;> simp [hm]
      · simp at hv
      · simp at hv
      · simp at ha
  · intro a ha hv
    simp only [add_clinic_report, List.mem_cons] at ha
    rcases ha with rfl | rfl | rfl | rfl | rfl | rfl | rfl | ha
    · decide
    · decide
    · simp at hv
    · decide
    · simp at hv
    · decide
    · simp at hv
    · simp at ha
  · intro a ha hv
    rcases List.mem_flatMap.mp ha with ⟨p, hp, hpa⟩
    simp only [productRowAtoms, List.mem_cons] at hpa
    rcases hpa with rfl | rfl | rfl | hpa
    · exact ⟨p, hp, rfl⟩
    · simp at hv
    · simp at hv
    · simp at hpa
  · simp [add_sales_report]
  · simp [add_sales_report]

/-- Concrete instance of the amended C10: in a one-row payment table the
reshaped direction word is one of the fixed Arabic labels. -/
theorem reshaping_scope_witness :
    (⟨true, "وارد"⟩ : TextAtom) ∈ add_payment_report [⟨"cash", false, 150, 2⟩]
    ∧ "وارد" ∈ ["تقرير المدفوعات", "النوع", "الطريقة", "المبلغ",
        "عدد المعاملات", "صادر", "وارد", "شبكة", "كاش"] :=
  ⟨by decide,
   (reshaping_scope [⟨"cash", false, 150, 2⟩] ⟨0, 0, 0⟩ ⟨0, 0, []⟩).1
     ⟨true, "وارد"⟩ (by decide) rfl⟩
